import Mathlib

/-!
Verification of the birthday-app scheduling and delivery core.

This file gives a shallow embedding, in Lean, of the parts of the
repository that the specification's claims talk about:

* `src/src/services/EmailService.ts` — the delivery client: the
  retryability classifier (`isRetryableError`), the circuit breaker
  (`isCircuitBreakerOpen` / `openCircuitBreaker` / `updateMetrics`) and the
  top-level `sendEmail` entry seen as a single state-transition step whose
  HTTP outcome is an input.
* `src/src/services/BirthdayService.ts` — the materialiser
  (`createBirthdayMessages` / `ensureBirthdayMessage`), the due processor
  (`processPendingMessages` / `processMessage`), startup recovery
  (`recoverUnsentMessages`) and the send-time computation
  (`getScheduledTime`), including a faithful model of the moment-timezone
  primitives it calls (zone parse, wall-clock setters with moment's
  `keepTime` offset handling, `toDate`).

Database state (Prisma/PostgreSQL) is embedded as explicit lists of rows;
timestamps are integer epoch milliseconds; `process.env` configuration is
passed as explicit parameters with the same defaults the code parses.
Logging and observability-only metric fields (`lastError`, `lastSuccess`,
`timeoutCount`, `successCount` bookkeeping beyond what the breaker reads)
have no effect on control flow and are not modelled.
-/

namespace BirthdayApp

/-- `MessageStatus` enum from `prisma/migrations/.../migration.sql`. -/
inductive MessageStatus
  | PENDING
  | SENT
  | FAILED
  | RETRY
deriving DecidableEq, Repr

/-- `MessageType` enum from the migration. -/
inductive MessageType
  | BIRTHDAY
  | ANNIVERSARY
deriving DecidableEq, Repr

/-- A row of the `users` table (fields the core reads). -/
structure User where
  id : Nat
  firstName : String
  lastName : String
  email : String
  birthday : String
  timezone : String
  isActive : Bool
deriving DecidableEq, Repr

/-- A row of the `message_logs` table. -/
structure MessageLog where
  id : Nat
  userId : Nat
  messageType : MessageType
  message : String
  status : MessageStatus
  scheduledDate : String
  scheduledAt : Int
  sentAt : Option Int
  retryCount : Nat
  errorMessage : Option String
  lockId : Option Nat
  lockedUntil : Option Int
deriving DecidableEq, Repr

/-- The database: the two tables the core touches. -/
structure DB where
  users : List User
  logs : List MessageLog
deriving DecidableEq, Repr

/-! ## EmailService (`src/src/services/EmailService.ts`) -/

/-- Outcome of one HTTP attempt as seen by `isRetryableError`: either a
response with a status code arrived, or the failure was transport-level
(no `error.response`), carrying an optional node error code such as
`ECONNABORTED`, `ETIMEDOUT`, `ECONNREFUSED`, `ENOTFOUND`. -/
inductive HttpError
  | response (status : Nat)
  | transport (code : Option String)
deriving DecidableEq, Repr

/-- `EmailService.isRetryableError` (lines 125-150).  Transport failures
take the no-response branch, whose two sub-branches (timeout codes and
other network errors) both return `true`; a response is retryable iff
`status >= 500 || status === 408 || status === 429`. -/
def isRetryableError : HttpError → Bool
  | .transport code =>
      if code = some "ECONNABORTED" ∨ code = some "ETIMEDOUT" then true
      else true
  | .response status =>
      decide (500 ≤ status) || decide (status = 408) || decide (status = 429)

/-- Mutable state of an `EmailService` instance that affects control flow:
the consecutive-failure counter (`metrics.failureCount`), the attempt
counter (`metrics.totalAttempts`) and `circuitBreakerOpenUntil`. -/
structure EmailServiceState where
  totalAttempts : Nat
  failureCount : Nat
  circuitBreakerOpenUntil : Option Int
deriving DecidableEq, Repr

/-- Fresh state as built by the `EmailService` constructor. -/
def EmailServiceState.init : EmailServiceState :=
  { totalAttempts := 0, failureCount := 0, circuitBreakerOpenUntil := none }

/-- `EmailService.isCircuitBreakerOpen` (lines 69-81): returns whether the
breaker blocks the call, and the possibly-updated state (the half-open
transition clears `circuitBreakerOpenUntil` once the reset time is
reached). -/
def isCircuitBreakerOpen (now : Int) (st : EmailServiceState) :
    Bool × EmailServiceState :=
  match st.circuitBreakerOpenUntil with
  | some t =>
      if now < t then (true, st)
      else (false, { st with circuitBreakerOpenUntil := none })
  | none => (false, st)

/-- `EmailService.openCircuitBreaker` (lines 83-90). -/
def openCircuitBreaker (resetMs now : Int) (st : EmailServiceState) :
    EmailServiceState :=
  { st with circuitBreakerOpenUntil := some (now + resetMs) }

/-- `EmailService.updateMetrics` (lines 92-119): bumps `totalAttempts`;
on success zeroes `failureCount`; on failure increments it and opens the
breaker when it reaches `threshold`. -/
def updateMetrics (threshold : Nat) (resetMs now : Int) (success : Bool)
    (st : EmailServiceState) : EmailServiceState :=
  let st1 := { st with totalAttempts := st.totalAttempts + 1 }
  if success then
    { st1 with failureCount := 0 }
  else
    let st2 := { st1 with failureCount := st1.failureCount + 1 }
    if threshold ≤ st2.failureCount then openCircuitBreaker resetMs now st2
    else st2

/-- Result of `sendEmail` as observed by its caller. -/
structure SendOutcome where
  success : Bool
  error : Option String
deriving DecidableEq, Repr

/-- Result of one `sendEmail` invocation: new service state, the returned
value, and whether any HTTP request was performed. -/
structure SendStep where
  state : EmailServiceState
  result : SendOutcome
  httpAttempted : Bool
deriving DecidableEq, Repr

/-- `EmailService.sendEmail` (lines 152-303) seen as one state-transition
step.  The in-call bounded retry loop never touches the service state
(`updateMetrics` runs exactly once, on the terminal outcome), so the whole
invocation is abstracted by its terminal HTTP outcome `outcome`.  If the
breaker is open the call returns the breaker failure without any HTTP
request (and still records a failure via `updateMetrics`). -/
def sendEmail (threshold : Nat) (resetMs now : Int) (outcome : SendOutcome)
    (st : EmailServiceState) : SendStep :=
  match isCircuitBreakerOpen now st with
  | (true, st1) =>
      { state := updateMetrics threshold resetMs now false st1
        result := { success := false
                    error := some "Circuit breaker is open - email service unavailable" }
        httpAttempted := false }
  | (false, st1) =>
      { state := updateMetrics threshold resetMs now outcome.success st1
        result := outcome
        httpAttempted := true }

/-! ## BirthdayService (`src/src/services/BirthdayService.ts`) -/

/-- The apostrophe character, kept out of string literals. -/
def apos : String := String.singleton (Char.ofNat 39)

/-- The message template used identically at creation
(`BirthdayService.ensureBirthdayMessage`, line 75) and inside
`EmailService.sendBirthdayMessage` (line 306). -/
def renderBirthday (fullName : String) : String :=
  "Hey, " ++ fullName ++ " it" ++ apos ++ "s your birthday"

/-- `EmailService.sendBirthdayMessage` (lines 305-308) renders the text
from the full name it is handed and forwards it to `sendEmail`; this
returns the text actually handed to the delivery transport. -/
def sendBirthdayMessageText (fullName : String) : String :=
  renderBirthday fullName

/-- Split a character list on dashes (the `YYYY-MM-DD` separators). -/
def splitDashAux : List Char → List Char → List (List Char)
  | [], acc => [acc.reverse]
  | c :: cs, acc =>
      if c = Char.ofNat 45 then acc.reverse :: splitDashAux cs []
      else splitDashAux cs (c :: acc)

/-- Decimal value of a non-empty digit run, `none` on any non-digit. -/
def digitsValAux : List Char → Nat → Option Nat
  | [], acc => some acc
  | c :: cs, acc =>
      if c.isDigit then digitsValAux cs (acc * 10 + (c.toNat - 48)) else none

/-- Decimal parse of a character run (empty or non-numeric gives
`none`). -/
def digitsVal (cs : List Char) : Option Nat :=
  match cs with
  | [] => none
  | _ => digitsValAux cs 0

/-- Month and day parsed from a `YYYY-MM-DD` string, `none` when the
string does not have three dash-separated numeric fields (moment then
yields an invalid date whose month/day compare unequal to everything). -/
def monthDay (s : String) : Option (Nat × Nat) :=
  match splitDashAux s.data [] with
  | [_, m, d] =>
      match digitsVal m, digitsVal d with
      | some mm, some dd => some (mm, dd)
      | _, _ => none
  | _ => none

/-- Environment of the materialiser: the current civil date per IANA zone
(what `moment.tz(timezone)` observes during one run) and the configured
send instant per zone and date (`getScheduledTime`, modelled concretely
further below; kept abstract here because the materialisation claims do
not depend on its value). -/
structure MaterialiseEnv where
  todayFn : String → String
  schedAt : String → String → Int

/-- `BirthdayService.isBirthdayToday` (lines 15-23): month/day of "now in
the user's zone" equal to month/day of the birthday string. -/
def isBirthdayToday (env : MaterialiseEnv) (birthday timezone : String) : Bool :=
  match monthDay (env.todayFn timezone), monthDay birthday with
  | some a, some b => decide (a = b)
  | _, _ => false

/-- The `findUnique` dedup probe of `ensureBirthdayMessage` (lines 63-71):
does a row for `(userId, messageType = BIRTHDAY, scheduledDate)` exist? -/
def hasTuple (logs : List MessageLog) (uid : Nat) (d : String) : Bool :=
  logs.any fun m =>
    decide (m.userId = uid ∧ m.messageType = MessageType.BIRTHDAY ∧ m.scheduledDate = d)

/-- `BirthdayService.ensureBirthdayMessage` (lines 58-93) acting on the
`message_logs` table plus a fresh-id supply (Prisma's generated ids are
modelled by a counter): create a Pending row unless the dedup tuple
already exists. -/
def ensureBirthdayMessage (env : MaterialiseEnv) (u : User) :
    List MessageLog × Nat → List MessageLog × Nat :=
  fun st =>
    let today := env.todayFn u.timezone
    if hasTuple st.1 u.id today then st
    else
      let fullName := u.firstName ++ " " ++ u.lastName
      ( st.1 ++ [{ id := st.2
                   userId := u.id
                   messageType := .BIRTHDAY
                   message := renderBirthday fullName
                   status := .PENDING
                   scheduledDate := today
                   scheduledAt := env.schedAt u.timezone today
                   sentAt := none
                   retryCount := 0
                   errorMessage := none
                   lockId := none
                   lockedUntil := none }]
      , st.2 + 1 )

/-- Per-user step of the `createBirthdayMessages` loop (lines 45-49). -/
def birthdayUserStep (env : MaterialiseEnv)
    (st : List MessageLog × Nat) (u : User) : List MessageLog × Nat :=
  if isBirthdayToday env u.birthday u.timezone then ensureBirthdayMessage env u st
  else st

/-- First unused row id for the fresh-id supply. -/
def nextId (db : DB) : Nat := (db.logs.map (·.id)).foldr max 0 + 1

/-- `BirthdayService.createBirthdayMessages` (lines 37-56): for every
active user whose birthday is today in their zone, ensure the scheduled
row exists. -/
def createBirthdayMessages (env : MaterialiseEnv) (db : DB) : DB :=
  { db with
    logs := ((db.users.filter (·.isActive)).foldl (birthdayUserStep env)
              (db.logs, nextId db)).1 }

/-- The lock condition used by both the due query (lines 107-110) and the
lock-acquiring `updateMany` (lines 142-145): `lockId` is null, or
`lockedUntil <= now` (a null `lockedUntil` fails the comparison, as in
SQL). -/
def lockFree (now : Int) (m : MessageLog) : Bool :=
  decide (m.lockId = none) ||
    (match m.lockedUntil with
     | some t => decide (t ≤ now)
     | none => false)

/-- The `where` clause of the due query in `processPendingMessages`
(lines 99-111): status in {PENDING, RETRY}, `scheduledAt <= now`, lock
absent or expired. -/
def isDue (now : Int) (m : MessageLog) : Bool :=
  (decide (m.status = .PENDING) || decide (m.status = .RETRY)) &&
    decide (m.scheduledAt ≤ now) && lockFree now m

/-- Comparison used by `orderBy: { scheduledAt: 'asc' }`. -/
def schedLE (a b : MessageLog) : Prop := a.scheduledAt ≤ b.scheduledAt

instance : DecidableRel schedLE := fun a b =>
  inferInstanceAs (Decidable (a.scheduledAt ≤ b.scheduledAt))

instance : IsTotal MessageLog schedLE :=
  ⟨fun a b => Int.le_total a.scheduledAt b.scheduledAt⟩

instance : IsTrans MessageLog schedLE :=
  ⟨fun _ _ _ hab hbc => le_trans hab hbc⟩

/-- The due query of `processPendingMessages` (lines 99-118): filter plus
ascending sort on `scheduledAt`.  The Prisma query has no `take`, so no
limit is applied. -/
def selectDue (db : DB) (now : Int) : List MessageLog :=
  List.insertionSort schedLE (db.logs.filter (isDue now))

/-- The query of `recoverUnsentMessages` (lines 224-233): status in
{PENDING, RETRY} and `scheduledAt < now`; no lock condition, no order. -/
def listMissed (db : DB) (now : Int) : List MessageLog :=
  db.logs.filter fun m =>
    (decide (m.status = .PENDING) || decide (m.status = .RETRY)) &&
      decide (m.scheduledAt < now)

/-- Lease duration, line 135: `5 * 60 * 1000` ms. -/
def lockDuration : Int := 5 * 60 * 1000

/-- Result of one `processMessage` call: the new database and, when the
delivery client was invoked, the recipient email and message text handed
to it. -/
structure ProcResult where
  db : DB
  delivered : Option (String × String)
deriving DecidableEq, Repr

/-- Row transform of the lock-acquiring `updateMany` (lines 139-151):
set the lease on the row with this id whose lock is absent or expired. -/
def lockRow (messageId : Nat) (now : Int) (lockId : Nat) (m : MessageLog) :
    MessageLog :=
  if m.id = messageId ∧ lockFree now m = true then
    { m with lockId := some lockId, lockedUntil := some (now + lockDuration) }
  else m

/-- Row transform of the success update (lines 176-185): Sent, stamp
`sentAt`, clear lock and error. -/
def sentRow (messageId : Nat) (now : Int) (m : MessageLog) : MessageLog :=
  if m.id = messageId then
    { m with status := .SENT, sentAt := some now,
             lockId := none, lockedUntil := none, errorMessage := none }
  else m

/-- Row transform of the failure update (lines 192-201):
`status = newRetryCount >= maxRetries ? FAILED : RETRY`, bump the
counter, record the error, clear the lock. -/
def failRow (messageId maxRetries newRetryCount : Nat) (err : Option String)
    (m : MessageLog) : MessageLog :=
  if m.id = messageId then
    { m with status := if maxRetries ≤ newRetryCount then .FAILED else .RETRY
             retryCount := newRetryCount
             errorMessage := some (err.getD "Unknown error")
             lockId := none, lockedUntil := none }
  else m

/-- `BirthdayService.processMessage` (lines 133-218) on its success and
failure paths (the `catch` cleanup is `releaseOwnLock` below).  Inputs:
the id being processed, the current time, the fresh `lockId`
(`uuidv4()`), the delivery outcome as a function of recipient and text,
and `maxRetries` (`EMAIL_SERVICE_MAX_RETRIES`, default 3).

Steps, as in the source: an `updateMany` that sets the lease on the row
with this id if its lock is absent or expired (count 0 aborts); a re-read
of the row together with its user (absent user aborts, without touching
the just-taken lease); the delivery call on the user's current name; then
either the Sent update or the failure update with
`newRetryCount = retryCount + 1`. -/
def processMessage (db : DB) (messageId : Nat) (now : Int) (lockId : Nat)
    (send : String → String → SendOutcome) (maxRetries : Nat) : ProcResult :=
  let canLock := db.logs.any fun m => decide (m.id = messageId) && lockFree now m
  if canLock then
    let logs1 := db.logs.map (lockRow messageId now lockId)
    let db1 : DB := { db with logs := logs1 }
    match logs1.find? (fun m => decide (m.id = messageId)) with
    | none => { db := db1, delivered := none }
    | some ml =>
      match db1.users.find? (fun u => decide (u.id = ml.userId)) with
      | none => { db := db1, delivered := none }
      | some user =>
        let text := sendBirthdayMessageText (user.firstName ++ " " ++ user.lastName)
        let result := send user.email text
        if result.success then
          { db := { db1 with logs := logs1.map (sentRow messageId now) }
            delivered := some (user.email, text) }
        else
          { db := { db1 with
              logs := logs1.map (failRow messageId maxRetries (ml.retryCount + 1) result.error) }
            delivered := some (user.email, text) }
  else { db := db, delivered := none }

/-- The `catch` handler of `processMessage` (lines 210-216): best-effort
lease release via `updateMany` filtered on `id` AND this call's own
`lockId`, clearing only the two lock fields.  It applies to whatever
database state the exception left behind. -/
def releaseOwnLock (db : DB) (messageId lockId : Nat) : DB :=
  { db with logs := db.logs.map fun m =>
      if m.id = messageId ∧ m.lockId = some lockId then
        { m with lockId := none, lockedUntil := none }
      else m }

/-- Sequential per-record processing loop shared by
`processPendingMessages` (lines 122-124) and `recoverUnsentMessages`
(lines 237-239): `lockOf` supplies the fresh lock token per record id. -/
def processIds (db : DB) (ids : List Nat) (now : Int) (lockOf : Nat → Nat)
    (send : String → String → SendOutcome) (maxRetries : Nat) : DB :=
  ids.foldl (fun d i => (processMessage d i now (lockOf i) send maxRetries).db) db

/-- `BirthdayService.processPendingMessages` (lines 95-131): one due tick. -/
def processPendingMessages (db : DB) (now : Int) (lockOf : Nat → Nat)
    (send : String → String → SendOutcome) (maxRetries : Nat) : DB :=
  processIds db ((selectDue db now).map (·.id)) now lockOf send maxRetries

/-- `BirthdayService.recoverUnsentMessages` (lines 220-246). -/
def recoverUnsentMessages (db : DB) (now : Int) (lockOf : Nat → Nat)
    (send : String → String → SendOutcome) (maxRetries : Nat) : DB :=
  processIds db ((listMissed db now).map (·.id)) now lockOf send maxRetries

/-! ## `getScheduledTime` and the moment-timezone primitives it calls

`BirthdayService.getScheduledTime` (lines 25-35) runs
`moment.tz(targetDate, timezone).hour(h).minute(m).second(0).millisecond(0).toDate()`.
The model below embeds the moment 2.29 / moment-timezone 0.5 semantics of
that pipeline:

* a zone is the moment-timezone data: transition instants (`untils`, epoch
  ms, finite part) and UTC offsets in minutes west of UTC (`offsets`, one
  more entry than `untils`);
* a zoned moment is stored as moment stores it: `d` is the wall-clock time
  written as if it were UTC (the `_d` Date whose UTC fields display local
  time) and `offset` is `_offset`, minutes east of UTC; the real instant is
  `d - offset * 60000`;
* `moment.tz(dateString, zone)` resolves the initial offset with the
  zone's `parse` (moveInvalidForward on, moveAmbiguousForward off);
* each wall-clock setter mutates the corresponding UTC field of `d` and
  then runs `updateOffset` with moment's per-unit `keepTime` flag — `true`
  for `.hour()`, `false` for `.minute()/.second()/.millisecond()`.  With
  `keepTime = true` the wall time is kept and the offset is re-resolved at
  the naive instant (the nested zone correction is cut off because
  moment-timezone's wrapped `utcOffset` clears `_z` for the inner call);
  with `keepTime = false` the instant is kept and the wall time shifts by
  the offset difference.
-/

/-- moment-timezone zone data: `offsets.length = untils.length + 1`;
offsets are minutes west of UTC (300 = UTC-5). -/
structure Zone where
  offsets : List Int
  untils : List Int
deriving DecidableEq, Repr

/-- `Zone._index`-based offset lookup: the offset of interval `i` applies
to instants strictly before `untils[i]`; the final offset applies
afterwards. -/
def offsetAtAux : List Int → List Int → Int → Int
  | o :: _, [], _ => o
  | o :: os, u :: us, t => if t < u then o else offsetAtAux os us t
  | [], _, _ => 0

/-- Offset (minutes west) in effect at instant `t`. -/
def offsetAt (z : Zone) (t : Int) : Int := offsetAtAux z.offsets z.untils t

/-- moment-timezone defaults baked into `Zone.parse`. -/
def moveAmbiguousForward : Bool := false

/-- moment-timezone defaults baked into `Zone.parse`. -/
def moveInvalidForward : Bool := true

/-- The loop body of moment-timezone's `Zone.parse`: `target` is the wall
time read as if UTC; each interval's offset (adjusted by the two
move-forward rules) converts the interval's end to local wall time for the
comparison; the first interval whose end lies beyond `target` wins, else
the last offset. -/
def zoneParseAux (offsets : List Int) (target : Int) : Nat → List Int → Int
  | i, [] => offsets.getD i 0
  | i, u :: rest =>
      let offset := offsets.getD i 0
      let offsetNext := offsets.getD (i + 1) 0
      let offsetPrev := offsets.getD (i - 1) 0
      let adjusted :=
        if offset < offsetNext ∧ moveAmbiguousForward = true then offsetNext
        else if offsetPrev < offset ∧ moveInvalidForward = true then offsetPrev
        else offset
      if target < u - adjusted * 60000 then offset
      else zoneParseAux offsets target (i + 1) rest

/-- moment-timezone `Zone.parse(timestamp)`. -/
def zoneParse (z : Zone) (target : Int) : Int :=
  zoneParseAux z.offsets target 0 z.untils

/-- A zoned moment as moment stores it: `d` = wall time as-if-UTC (epoch
ms), `offset` = minutes east of UTC. -/
structure MomentState where
  d : Int
  offset : Int
deriving DecidableEq, Repr

/-- `moment.fn.valueOf`: the real instant, `_d - _offset * 60000`. -/
def instantOf (m : MomentState) : Int := m.d - m.offset * 60000

/-- moment-timezone's `updateOffset(mom, keepTime)` as reached from a
setter: re-resolve the zone offset at the current instant; if it changed,
either keep the wall time (`keepTime = true` — the hour setter) or keep
the instant (`keepTime = false` — minute/second/millisecond setters). -/
def tzUpdateOffset (z : Zone) (keepTime : Bool) (m : MomentState) : MomentState :=
  let input := -(offsetAt z (instantOf m))
  if input = m.offset then m
  else if keepTime then { m with offset := input }
  else { d := m.d + (input - m.offset) * 60000, offset := input }

/-- `moment.tz('YYYY-MM-DD', zone)` where `M` is the target date's wall
midnight written as-if-UTC: `moment.utc(input)` gives instant `M`, the
zone's `parse` shifts it by the resolved offset, and attaching the zone
runs `updateOffset` with `keepTime = false`. -/
def momentTzOfDate (z : Zone) (M : Int) : MomentState :=
  let p := zoneParse z M
  let i0 := M + p * 60000
  let w := offsetAt z i0
  { d := i0 - w * 60000, offset := -w }

/-- `.hour(h)`: `Date.prototype.setUTCHours` on `d` (keep minute, second,
millisecond of the day), then `updateOffset` with `keepTime = true`. -/
def setHour (z : Zone) (h : Int) (m : MomentState) : MomentState :=
  tzUpdateOffset z true
    { m with d := m.d - m.d.emod 86400000 + h * 3600000 + m.d.emod 3600000 }

/-- `.minute(v)`: `setUTCMinutes`, then `updateOffset` with
`keepTime = false`. -/
def setMinute (z : Zone) (v : Int) (m : MomentState) : MomentState :=
  tzUpdateOffset z false
    { m with d := m.d - m.d.emod 3600000 + v * 60000 + m.d.emod 60000 }

/-- `.second(v)`: `setUTCSeconds`, then `updateOffset` with
`keepTime = false`. -/
def setSecond (z : Zone) (v : Int) (m : MomentState) : MomentState :=
  tzUpdateOffset z false
    { m with d := m.d - m.d.emod 60000 + v * 1000 + m.d.emod 1000 }

/-- `.millisecond(v)`: `setUTCMilliseconds`, then `updateOffset` with
`keepTime = false`. -/
def setMillisecond (z : Zone) (v : Int) (m : MomentState) : MomentState :=
  tzUpdateOffset z false { m with d := m.d - m.d.emod 1000 + v }

/-- `BirthdayService.getScheduledTime` (lines 25-35): the configured hour
and minute applied to the target date in the given zone; the returned
`Date` is the resulting instant. -/
def getScheduledTime (z : Zone) (hour minute : Int) (M : Int) : Int :=
  instantOf (setMillisecond z 0 (setSecond z 0 (setMinute z minute (setHour z hour (momentTzOfDate z M)))))

/-- America/New_York, fragment covering 2026-2027: EDT (240) until
2026-11-01T06:00Z, EST (300) until 2027-03-14T07:00Z, EDT until
2027-11-07T06:00Z, then EST. -/
def nyZone : Zone :=
  { offsets := [240, 300, 240, 300]
    untils := [1793512800000, 1805007600000, 1825567200000] }

/-- 2027-03-14 (the 2027 US spring-forward date) as wall midnight
as-if-UTC. -/
def mar14 : Int := 1804982400000

/-- 2027-11-07 (the 2027 US fall-back date) as wall midnight as-if-UTC. -/
def nov7 : Int := 1825545600000

/-! ## Shared concrete test data -/

/-- A delivery outcome that always fails with an HTTP 500. -/
def failSend : String → String → SendOutcome :=
  fun _ _ => { success := false, error := some "HTTP 500: Internal Server Error" }

/-- A delivery outcome that always succeeds. -/
def okSend : String → String → SendOutcome :=
  fun _ _ => { success := true, error := none }

/-- The terminal outcome of a failed invocation, for driving the breaker. -/
def failOutcome : SendOutcome :=
  { success := false, error := some "HTTP 500: Internal Server Error" }

/-- A sequence of `sendEmail` invocations at the given times, all of whose
attempted deliveries fail terminally. -/
def runFail (threshold : Nat) (resetMs : Int) (times : List Int)
    (st : EmailServiceState) : EmailServiceState :=
  times.foldl (fun s t => (sendEmail threshold resetMs t failOutcome s).state) st

/-! ## C5: retryability classifier -/

/-- C5: the classifier returns retryable for every HTTP status ≥ 500, for
408 and 429, and for every transport-level failure with no HTTP response;
it returns terminal for every other 4xx status. -/
theorem c5_classifier :
    (∀ s : Nat, 500 ≤ s → isRetryableError (.response s) = true) ∧
    isRetryableError (.response 408) = true ∧
    isRetryableError (.response 429) = true ∧
    (∀ code : Option String, isRetryableError (.transport code) = true) ∧
    (∀ s : Nat, 400 ≤ s → s < 500 → s ≠ 408 → s ≠ 429 →
      isRetryableError (.response s) = false) := by
  refine ⟨?_, by decide, by decide, ?_, ?_⟩
  · intro s hs
    simp only [isRetryableError, Bool.or_eq_true, decide_eq_true_eq]
    omega
  · intro code
    simp only [isRetryableError]
    split <;> rfl
  · intro s h4 h5 h408 h429
    simp only [isRetryableError, Bool.or_eq_false_iff, decide_eq_false_iff_not]
    omega

/-- C5 witness: the classifier evaluated at 500, 502, 408, 429, a timeout,
a connection refusal, 400 and 404. -/
theorem c5_classifier_witness :
    isRetryableError (.response 500) = true ∧
    isRetryableError (.response 502) = true ∧
    isRetryableError (.response 408) = true ∧
    isRetryableError (.response 429) = true ∧
    isRetryableError (.transport (some "ETIMEDOUT")) = true ∧
    isRetryableError (.transport (some "ECONNREFUSED")) = true ∧
    isRetryableError (.response 400) = false ∧
    isRetryableError (.response 404) = false :=
  ⟨c5_classifier.1 500 (by decide), c5_classifier.1 502 (by decide),
   c5_classifier.2.1, c5_classifier.2.2.1,
   c5_classifier.2.2.2.1 (some "ETIMEDOUT"), c5_classifier.2.2.2.1 (some "ECONNREFUSED"),
   c5_classifier.2.2.2.2 400 (by decide) (by decide) (by decide) (by decide),
   c5_classifier.2.2.2.2 404 (by decide) (by decide) (by decide) (by decide)⟩

/-! ## C6: circuit breaker -/

/-- One closed-breaker failing invocation: attempted, counter bumped,
breaker opened exactly when the counter reaches the threshold. -/
lemma sendEmail_closed_fail (threshold : Nat) (resetMs now : Int)
    (st : EmailServiceState) (h : st.circuitBreakerOpenUntil = none) :
    (sendEmail threshold resetMs now failOutcome st).state =
      { totalAttempts := st.totalAttempts + 1
        failureCount := st.failureCount + 1
        circuitBreakerOpenUntil :=
          if threshold ≤ st.failureCount + 1 then some (now + resetMs) else none } := by
  have h1 : isCircuitBreakerOpen now st = (false, st) := by
    simp [isCircuitBreakerOpen, h]
  by_cases hc : threshold ≤ st.failureCount + 1 <;>
    simp [sendEmail, h1, updateMetrics, failOutcome, openCircuitBreaker, hc, h]

/-- Starting from a closed breaker, a run of consecutive terminally-failed
invocations whose length brings the counter to the threshold ends with the
breaker open until `lastTime + resetMs`. -/
lemma runFail_opens (threshold : Nat) (resetMs : Int) :
    ∀ (ts : List Int) (tl : Int) (st : EmailServiceState),
      st.circuitBreakerOpenUntil = none →
      st.failureCount + ts.length + 1 = threshold →
      (runFail threshold resetMs (ts ++ [tl]) st).circuitBreakerOpenUntil =
        some (tl + resetMs) := by
  intro ts
  induction ts with
  | nil =>
      intro tl st hopen hcount
      simp only [List.length_nil] at hcount
      simp only [List.nil_append, runFail, List.foldl_cons, List.foldl_nil]
      rw [sendEmail_closed_fail threshold resetMs tl st hopen]
      simp only [if_pos (show threshold ≤ st.failureCount + 1 by omega)]
  | cons t ts ih =>
      intro tl st hopen hcount
      simp only [List.cons_append, runFail, List.foldl_cons]
      rw [sendEmail_closed_fail threshold resetMs t st hopen]
      have hlt : ¬ threshold ≤ st.failureCount + 1 := by
        simp only [List.length_cons] at hcount; omega
      rw [if_neg hlt]
      exact ih tl _ rfl (by simp only [List.length_cons] at hcount ⊢; omega)

/-- C6: after `threshold` consecutive terminally-failed invocations the
breaker opens until `lastTime + resetMs`; while `now` is before the open
deadline every call returns the breaker-open failure without any HTTP
request; once the deadline has passed the call is attempted; a success
then zeroes the failure counter with the breaker closed, and a failure
re-opens the breaker for another `resetMs`. -/
theorem c6_circuit_breaker :
    (∀ (threshold : Nat) (resetMs : Int) (ts : List Int) (tl : Int)
        (st : EmailServiceState),
      st.circuitBreakerOpenUntil = none →
      st.failureCount + ts.length + 1 = threshold →
      (runFail threshold resetMs (ts ++ [tl]) st).circuitBreakerOpenUntil =
        some (tl + resetMs)) ∧
    (∀ (threshold : Nat) (resetMs now : Int) (o : SendOutcome)
        (st : EmailServiceState) (t : Int),
      st.circuitBreakerOpenUntil = some t → now < t →
      (sendEmail threshold resetMs now o st).httpAttempted = false ∧
      (sendEmail threshold resetMs now o st).result.success = false ∧
      (sendEmail threshold resetMs now o st).result.error =
        some "Circuit breaker is open - email service unavailable") ∧
    (∀ (threshold : Nat) (resetMs now : Int) (o : SendOutcome)
        (st : EmailServiceState) (t : Int),
      st.circuitBreakerOpenUntil = some t → t ≤ now →
      (sendEmail threshold resetMs now o st).httpAttempted = true) ∧
    (∀ (threshold : Nat) (resetMs now : Int) (st : EmailServiceState) (t : Int),
      st.circuitBreakerOpenUntil = some t → t ≤ now →
      (sendEmail threshold resetMs now { success := true, error := none } st).state.failureCount = 0 ∧
      (sendEmail threshold resetMs now { success := true, error := none } st).state.circuitBreakerOpenUntil = none) ∧
    (∀ (threshold : Nat) (resetMs now : Int) (e : Option String)
        (st : EmailServiceState) (t : Int),
      st.circuitBreakerOpenUntil = some t → t ≤ now →
      threshold ≤ st.failureCount + 1 →
      (sendEmail threshold resetMs now { success := false, error := e } st).state.circuitBreakerOpenUntil =
        some (now + resetMs)) := by
  refine ⟨runFail_opens, ?_, ?_, ?_, ?_⟩
  · intro threshold resetMs now o st t ht hlt
    simp [sendEmail, isCircuitBreakerOpen, ht, hlt]
  · intro threshold resetMs now o st t ht hle
    simp [sendEmail, isCircuitBreakerOpen, ht, show ¬ now < t by omega]
  · intro threshold resetMs now st t ht hle
    simp [sendEmail, isCircuitBreakerOpen, ht, show ¬ now < t by omega, updateMetrics]
  · intro threshold resetMs now e st t ht hle hth
    simp only [sendEmail, isCircuitBreakerOpen, ht, if_neg (show ¬ now < t by omega)]
    simp [updateMetrics, openCircuitBreaker, hth]

/-- C6 witness: with `threshold = 5` and `resetMs = 60000`, five failures
at times 0..4 open the breaker until 60004; a call at 1000 is blocked
without I/O; a successful call at 70000 is attempted, closes the breaker
and zeroes the counter; a failing call at 70000 re-opens it until 130000. -/
theorem c6_circuit_breaker_witness :
    (runFail 5 60000 ([0, 1, 2, 3] ++ [4]) EmailServiceState.init).circuitBreakerOpenUntil =
      some (4 + 60000) ∧
    (sendEmail 5 60000 1000 failOutcome
        { totalAttempts := 5, failureCount := 5,
          circuitBreakerOpenUntil := some 60004 }).httpAttempted = false ∧
    (sendEmail 5 60000 70000 { success := true, error := none }
        { totalAttempts := 5, failureCount := 5,
          circuitBreakerOpenUntil := some 60004 }).state.failureCount = 0 ∧
    (sendEmail 5 60000 70000 { success := false, error := some "HTTP 500: Internal Server Error" }
        { totalAttempts := 5, failureCount := 5,
          circuitBreakerOpenUntil := some 60004 }).state.circuitBreakerOpenUntil =
      some (70000 + 60000) :=
  ⟨c6_circuit_breaker.1 5 60000 [0, 1, 2, 3] 4 EmailServiceState.init rfl (by decide),
   (c6_circuit_breaker.2.1 5 60000 1000 failOutcome _ 60004 rfl (by decide)).1,
   (c6_circuit_breaker.2.2.2.1 5 60000 70000 _ 60004 rfl (by decide)).1,
   c6_circuit_breaker.2.2.2.2 5 60000 70000 (some "HTTP 500: Internal Server Error") _ 60004 rfl
     (by decide) (by decide)⟩

/-! ## C10: exception-path lease release -/

/-- C10: the best-effort cleanup run by the exception handler releases the
lease only on the row with this call's own id and lock token; a row
locked under a different token (or any other row) is left exactly as it
was, and even on the released row no field other than `lockId` and
`lockedUntil` changes.  Stated over an arbitrary database, hence over the
state left by any exception point. -/
theorem c10_release_own_lock_frame (db : DB) (i lk : Nat) :
    (releaseOwnLock db i lk).users = db.users ∧
    List.Forall₂ (fun m m' : MessageLog =>
        (m.lockId ≠ some lk → m' = m) ∧
        (m.id ≠ i → m' = m) ∧
        m'.id = m.id ∧ m'.userId = m.userId ∧ m'.messageType = m.messageType ∧
        m'.message = m.message ∧ m'.status = m.status ∧
        m'.scheduledDate = m.scheduledDate ∧ m'.scheduledAt = m.scheduledAt ∧
        m'.sentAt = m.sentAt ∧ m'.retryCount = m.retryCount ∧
        m'.errorMessage = m.errorMessage)
      db.logs (releaseOwnLock db i lk).logs := by
  refine ⟨rfl, ?_⟩
  simp only [releaseOwnLock, List.forall₂_map_right_iff, List.forall₂_same]
  intro m _
  by_cases hc : m.id = i ∧ m.lockId = some lk
  · rw [if_pos hc]
    exact ⟨fun h => absurd hc.2 h, fun h => absurd hc.1 h,
      rfl, rfl, rfl, rfl, rfl, rfl, rfl, rfl, rfl, rfl⟩
  · rw [if_neg hc]
    exact ⟨fun _ => rfl, fun _ => rfl, rfl, rfl, rfl, rfl, rfl, rfl, rfl, rfl, rfl, rfl⟩

/-! ## Structural lemmas about `processMessage` -/

/-- `processMessage` never writes the `users` table. -/
lemma processMessage_users (db : DB) (i : Nat) (now : Int) (lk : Nat)
    (send : String → String → SendOutcome) (mr : Nat) :
    (processMessage db i now lk send mr).db.users = db.users := by
  simp only [processMessage]
  split
  · split
    · rfl
    · split
      · rfl
      · split <;> rfl
  · rfl

/-- `lockRow` preserves the id. -/
lemma lockRow_id (i : Nat) (now : Int) (lk : Nat) (m : MessageLog) :
    (lockRow i now lk m).id = m.id := by
  unfold lockRow; split <;> rfl

/-- `lockRow` only touches the two lock fields. -/
lemma lockRow_fields (i : Nat) (now : Int) (lk : Nat) (m : MessageLog) :
    (lockRow i now lk m).status = m.status ∧
    (lockRow i now lk m).sentAt = m.sentAt ∧
    (lockRow i now lk m).userId = m.userId ∧
    (lockRow i now lk m).retryCount = m.retryCount ∧
    (lockRow i now lk m).message = m.message := by
  unfold lockRow; split <;> exact ⟨rfl, rfl, rfl, rfl, rfl⟩

/-- `lockRow` is the identity on other ids. -/
lemma lockRow_of_ne (i : Nat) (now : Int) (lk : Nat) {m : MessageLog}
    (h : m.id ≠ i) : lockRow i now lk m = m := by
  unfold lockRow; exact if_neg fun hc => h hc.1

/-- `sentRow` preserves the id. -/
lemma sentRow_id (i : Nat) (now : Int) (m : MessageLog) :
    (sentRow i now m).id = m.id := by
  unfold sentRow; split <;> rfl

/-- `sentRow` is the identity on other ids. -/
lemma sentRow_of_ne (i : Nat) (now : Int) {m : MessageLog} (h : m.id ≠ i) :
    sentRow i now m = m := by
  unfold sentRow; exact if_neg h

/-- `sentRow` preserves the Sent-implies-sentAt row invariant. -/
lemma sentRow_sentInv (i : Nat) (now : Int) (m : MessageLog)
    (hinv : m.status = MessageStatus.SENT → m.sentAt ≠ none) :
    (sentRow i now m).status = MessageStatus.SENT → (sentRow i now m).sentAt ≠ none := by
  unfold sentRow
  split
  · intro _; simp
  · exact hinv

/-- `failRow` preserves the id. -/
lemma failRow_id (i mr n : Nat) (e : Option String) (m : MessageLog) :
    (failRow i mr n e m).id = m.id := by
  unfold failRow; split <;> rfl

/-- `failRow` is the identity on other ids. -/
lemma failRow_of_ne (i mr n : Nat) (e : Option String) {m : MessageLog}
    (h : m.id ≠ i) : failRow i mr n e m = m := by
  unfold failRow; exact if_neg h

/-- `failRow` preserves the Sent-implies-sentAt row invariant (its result
status is never Sent on the touched row). -/
lemma failRow_sentInv (i mr n : Nat) (e : Option String) (m : MessageLog)
    (hinv : m.status = MessageStatus.SENT → m.sentAt ≠ none) :
    (failRow i mr n e m).status = MessageStatus.SENT →
      (failRow i mr n e m).sentAt ≠ none := by
  unfold failRow
  split
  · intro hs
    exact absurd hs (by split <;> simp)
  · exact hinv

/-- Every branch of `processMessage` rewrites the log table by a per-row
function that is the identity on rows with a different id and preserves
the Sent-implies-sentAt invariant row-wise. -/
lemma processMessage_shape (db : DB) (i : Nat) (now : Int) (lk : Nat)
    (send : String → String → SendOutcome) (mr : Nat) :
    ∃ f : MessageLog → MessageLog,
      (processMessage db i now lk send mr).db.logs = db.logs.map f ∧
      (∀ m, m.id ≠ i → f m = m) ∧
      (∀ m, (m.status = MessageStatus.SENT → m.sentAt ≠ none) →
        ((f m).status = MessageStatus.SENT → (f m).sentAt ≠ none)) := by
  have hlockinv : ∀ m : MessageLog,
      (m.status = MessageStatus.SENT → m.sentAt ≠ none) →
      ((lockRow i now lk m).status = MessageStatus.SENT →
        (lockRow i now lk m).sentAt ≠ none) := by
    intro m hinv hs
    obtain ⟨h1, h2, _⟩ := lockRow_fields i now lk m
    rw [h1] at hs; rw [h2]; exact hinv hs
  simp only [processMessage]
  split
  · split
    · exact ⟨lockRow i now lk, rfl, fun m hm => lockRow_of_ne i now lk hm, hlockinv⟩
    · split
      · exact ⟨lockRow i now lk, rfl, fun m hm => lockRow_of_ne i now lk hm, hlockinv⟩
      · split
        · refine ⟨sentRow i now ∘ lockRow i now lk, List.map_map _ _ _, ?_, ?_⟩
          · intro m hm
            simp only [Function.comp_apply, lockRow_of_ne i now lk hm,
              sentRow_of_ne i now hm]
          · intro m hinv
            exact sentRow_sentInv i now (lockRow i now lk m) (hlockinv m hinv)
        · refine ⟨failRow i mr _ _ ∘ lockRow i now lk, List.map_map _ _ _, ?_, ?_⟩
          · intro m hm
            simp only [Function.comp_apply, lockRow_of_ne i now lk hm,
              failRow_of_ne i mr _ _ hm]
          · intro m hinv
            exact failRow_sentInv i mr _ _ (lockRow i now lk m) (hlockinv m hinv)
  · exact ⟨id, (List.map_id _).symm, fun _ _ => rfl, fun m hinv hs => hinv hs⟩

/-- A row whose id is not being processed survives `processMessage`
unchanged. -/
lemma processMessage_mem_of_ne (db : DB) (i : Nat) (now : Int) (lk : Nat)
    (send : String → String → SendOutcome) (mr : Nat) {r : MessageLog}
    (hr : r ∈ db.logs) (hne : r.id ≠ i) :
    r ∈ (processMessage db i now lk send mr).db.logs := by
  obtain ⟨f, hmap, hid, _⟩ := processMessage_shape db i now lk send mr
  rw [hmap]
  exact hid r hne ▸ List.mem_map_of_mem f hr

/-- A row none of whose ids are processed survives the per-record loop
unchanged. -/
lemma processIds_mem (now : Int) (lockOf : Nat → Nat)
    (send : String → String → SendOutcome) (mr : Nat) :
    ∀ (ids : List Nat) (db : DB) {r : MessageLog},
      r ∈ db.logs → (∀ j ∈ ids, j ≠ r.id) →
      r ∈ (processIds db ids now lockOf send mr).logs := by
  intro ids
  induction ids with
  | nil => intro db r hr _; exact hr
  | cons j js ih =>
      intro db r hr hne
      simp only [processIds, List.foldl_cons]
      exact ih _ (processMessage_mem_of_ne db j now (lockOf j) send mr hr
        (fun h => hne j (by simp) h.symm)) (fun k hk => hne k (by simp [hk]))

/-- Invariant 3 of the spec data model: a Sent row carries a `sentAt`. -/
def SentInv (db : DB) : Prop :=
  ∀ m ∈ db.logs, m.status = MessageStatus.SENT → m.sentAt ≠ none

/-- `processMessage` preserves the Sent-implies-sentAt invariant. -/
lemma processMessage_sentInv (db : DB) (i : Nat) (now : Int) (lk : Nat)
    (send : String → String → SendOutcome) (mr : Nat) (h : SentInv db) :
    SentInv (processMessage db i now lk send mr).db := by
  obtain ⟨f, hmap, _, hsent⟩ := processMessage_shape db i now lk send mr
  intro m hm
  rw [hmap] at hm
  obtain ⟨m0, hm0, rfl⟩ := List.mem_map.mp hm
  exact hsent m0 (h m0 hm0)

/-- The per-record loop preserves the Sent-implies-sentAt invariant. -/
lemma processIds_sentInv (now : Int) (lockOf : Nat → Nat)
    (send : String → String → SendOutcome) (mr : Nat) :
    ∀ (ids : List Nat) (db : DB), SentInv db →
      SentInv (processIds db ids now lockOf send mr) := by
  intro ids
  induction ids with
  | nil => intro db h; exact h
  | cons j js ih =>
      intro db h
      simp only [processIds, List.foldl_cons]
      exact ih _ (processMessage_sentInv db j now (lockOf j) send mr h)

/-- Membership in the due selection. -/
lemma mem_selectDue (db : DB) (now : Int) {m : MessageLog} :
    m ∈ selectDue db now ↔ m ∈ db.logs ∧ isDue now m = true := by
  unfold selectDue
  rw [(List.perm_insertionSort schedLE _).mem_iff, List.mem_filter]

/-- A Sent row shares its id with no selected-due id (ids unique). -/
lemma due_ids_ne_sent (db : DB) (now : Int)
    (hnd : (db.logs.map (·.id)).Nodup) {r : MessageLog}
    (hr : r ∈ db.logs) (hs : r.status = MessageStatus.SENT) :
    ∀ j ∈ (selectDue db now).map (·.id), j ≠ r.id := by
  intro j hj heq
  obtain ⟨m, hm, rfl⟩ := List.mem_map.mp hj
  obtain ⟨hmdb, hdue⟩ := (mem_selectDue db now).mp hm
  have hmr : m = r := List.inj_on_of_nodup_map hnd hmdb hr heq
  subst hmr
  simp [isDue, hs] at hdue

/-- A Sent row shares its id with no missed-recovery id (ids unique). -/
lemma missed_ids_ne_sent (db : DB) (now : Int)
    (hnd : (db.logs.map (·.id)).Nodup) {r : MessageLog}
    (hr : r ∈ db.logs) (hs : r.status = MessageStatus.SENT) :
    ∀ j ∈ (listMissed db now).map (·.id), j ≠ r.id := by
  intro j hj heq
  obtain ⟨m, hm, rfl⟩ := List.mem_map.mp hj
  obtain ⟨hmdb, hmiss⟩ := List.mem_filter.mp hm
  have hmr : m = r := List.inj_on_of_nodup_map hnd hmdb hr heq
  subst hmr
  simp [hs] at hmiss

/-- `find?` on an id-keyed predicate commutes with mapping an
id-preserving row transform. -/
lemma find_map_id_pred (l : List MessageLog) (g : MessageLog → MessageLog)
    (hg : ∀ m, (g m).id = m.id) (i : Nat) :
    (l.map g).find? (fun m => decide (m.id = i)) =
      (l.find? (fun m => decide (m.id = i))).map g := by
  have hp : ((fun m : MessageLog => decide (m.id = i)) ∘ g) =
      fun m : MessageLog => decide (m.id = i) := by
    funext m; simp [Function.comp, hg]
  rw [List.find?_map, hp]

/-- Once the lease is acquired on the re-read row `ml`, `processMessage`
reduces to the post-lock pipeline: the lock `updateMany` has rewritten the
table, and the user lookup proceeds on `ml.userId`. -/
lemma processMessage_locked (db : DB) (i : Nat) (now : Int) (lk : Nat)
    (send : String → String → SendOutcome) (mr : Nat) {ml : MessageLog}
    (hfind : db.logs.find? (fun m => decide (m.id = i)) = some ml)
    (hlock : lockFree now ml = true) :
    processMessage db i now lk send mr =
      (match db.users.find? (fun u => decide (u.id = ml.userId)) with
       | none =>
           { db := { db with logs := db.logs.map (lockRow i now lk) }
             delivered := none }
       | some user =>
           if (send user.email (sendBirthdayMessageText (user.firstName ++ " " ++ user.lastName))).success then
             { db := { db with logs := (db.logs.map (lockRow i now lk)).map (sentRow i now) }
               delivered := some (user.email,
                 sendBirthdayMessageText (user.firstName ++ " " ++ user.lastName)) }
           else
             { db := { db with
                 logs := (db.logs.map (lockRow i now lk)).map
                   (failRow i mr (ml.retryCount + 1)
                     (send user.email (sendBirthdayMessageText (user.firstName ++ " " ++ user.lastName))).error) }
               delivered := some (user.email,
                 sendBirthdayMessageText (user.firstName ++ " " ++ user.lastName)) }) := by
  have hid : ml.id = i := by
    have := List.find?_some hfind
    simpa using this
  have hmem : ml ∈ db.logs := List.mem_of_find?_eq_some hfind
  have hcan : (db.logs.any fun m => decide (m.id = i) && lockFree now m) = true :=
    List.any_eq_true.mpr ⟨ml, hmem, by simp [hid, hlock]⟩
  have hml1 : lockRow i now lk ml =
      { ml with lockId := some lk, lockedUntil := some (now + lockDuration) } :=
    if_pos ⟨hid, hlock⟩
  have hfind1 : (db.logs.map (lockRow i now lk)).find? (fun m => decide (m.id = i)) =
      some { ml with lockId := some lk, lockedUntil := some (now + lockDuration) } := by
    rw [find_map_id_pred db.logs _ (lockRow_id i now lk) i, hfind]
    simp only [Option.map]
    rw [hml1]
  simp only [processMessage, hcan, if_true, hfind1]

/-! ## Structural lemmas about the materialiser -/

/-- One materialiser fold only appends rows, and appends only Pending
rows. -/
lemma birthdayFold_shape (env : MaterialiseEnv) :
    ∀ (us : List User) (st : List MessageLog × Nat),
      ∃ t, (us.foldl (birthdayUserStep env) st).1 = st.1 ++ t ∧
        ∀ m ∈ t, m.status = MessageStatus.PENDING := by
  intro us
  induction us with
  | nil => intro st; exact ⟨[], (List.append_nil _).symm, by simp⟩
  | cons u us ih =>
      intro st
      obtain ⟨t2, ht2, hp2⟩ := ih (birthdayUserStep env st u)
      have hstep : ∃ t1, (birthdayUserStep env st u).1 = st.1 ++ t1 ∧
          ∀ m ∈ t1, m.status = MessageStatus.PENDING := by
        unfold birthdayUserStep ensureBirthdayMessage
        split
        · dsimp only
          split
          · exact ⟨[], (List.append_nil _).symm, by simp⟩
          · exact ⟨[_], rfl, by intro m hm; simp at hm; subst hm; rfl⟩
        · exact ⟨[], (List.append_nil _).symm, by simp⟩
      obtain ⟨t1, ht1, hp1⟩ := hstep
      refine ⟨t1 ++ t2, ?_, ?_⟩
      · simp only [List.foldl_cons, ht2, ht1, List.append_assoc]
      · intro m hm
        rcases List.mem_append.mp hm with h | h
        · exact hp1 m h
        · exact hp2 m h

/-- `createBirthdayMessages` only appends Pending rows and never writes
the users table. -/
lemma createBirthdayMessages_shape (env : MaterialiseEnv) (db : DB) :
    (createBirthdayMessages env db).users = db.users ∧
    ∃ t, (createBirthdayMessages env db).logs = db.logs ++ t ∧
      ∀ m ∈ t, m.status = MessageStatus.PENDING := by
  refine ⟨rfl, ?_⟩
  obtain ⟨t, ht, hp⟩ := birthdayFold_shape env (db.users.filter (·.isActive)) (db.logs, nextId db)
  exact ⟨t, ht, hp⟩

/-! ## Concrete fixtures -/

/-- A user as in spec scenario 1. -/
def john : User :=
  { id := 1, firstName := "John", lastName := "Doe"
    email := "john.doe@example.com", birthday := "1990-05-15"
    timezone := "America/New_York", isActive := true }

/-- The same user after a rename. -/
def jane : User := { john with firstName := "Jane" }

/-- A due pending row for `john`. -/
def pendingLog : MessageLog :=
  { id := 1, userId := 1, messageType := .BIRTHDAY
    message := renderBirthday "John Doe", status := .PENDING
    scheduledDate := "2026-05-15", scheduledAt := 0, sentAt := none
    retryCount := 0, errorMessage := none, lockId := none, lockedUntil := none }

/-- The same row already delivered. -/
def sentLog : MessageLog := { pendingLog with status := .SENT, sentAt := some 50 }

/-- Database with one pending row. -/
def dbPending : DB := { users := [john], logs := [pendingLog] }

/-- Database with one delivered row. -/
def dbSent : DB := { users := [john], logs := [sentLog] }

/-- Database whose pending row's user has been deleted. -/
def dbOrphan : DB := { users := [], logs := [pendingLog] }

/-- A materialiser environment fixing the civil day at 2026-05-15. -/
def envMay15 : MaterialiseEnv :=
  { todayFn := fun _ => "2026-05-15", schedAt := fun _ _ => 0 }

/-- Database with `john` and no rows yet. -/
def dbJohn : DB := { users := [john], logs := [] }

/-- `dbJohn` after one materialiser run on 2026-05-15. -/
def dbCreated : DB := createBirthdayMessages envMay15 dbJohn

/-- `dbCreated` after the user was renamed to Jane. -/
def dbRenamed : DB := { dbCreated with users := [jane] }

/-- One due-processing tick with deterministic lock tokens and a
persistently failing delivery. -/
def tick (now : Int) (db : DB) : DB :=
  processPendingMessages db now (fun _ => 7) failSend 3

/-! ## C1: terminality of Sent -/

/-- C1 (amended): a Sent row always carries `sentAt` (the invariant is
preserved by due-processing, recovery and materialisation), and those
three flows never change a Sent row — due-processing and recovery only
ever hand Pending/Retry ids to the per-record step, and materialisation
only appends.  The original claim's further assertion that the per-record
step itself is a no-op on a Sent record is false (see the
counterexample): `processMessage` performs no status check, so Sent rows
are protected only by the selection filters. -/
theorem c1_sent_terminality :
    (∀ (db : DB) (now : Int) (lockOf : Nat → Nat)
        (send : String → String → SendOutcome) (mr : Nat) (r : MessageLog),
      (db.logs.map (·.id)).Nodup → r ∈ db.logs → r.status = MessageStatus.SENT →
      r ∈ (processPendingMessages db now lockOf send mr).logs ∧
      r ∈ (recoverUnsentMessages db now lockOf send mr).logs) ∧
    (∀ (env : MaterialiseEnv) (db : DB) (r : MessageLog),
      r ∈ db.logs → r ∈ (createBirthdayMessages env db).logs) ∧
    (∀ (db : DB) (now : Int) (lockOf : Nat → Nat)
        (send : String → String → SendOutcome) (mr : Nat),
      SentInv db →
      SentInv (processPendingMessages db now lockOf send mr) ∧
      SentInv (recoverUnsentMessages db now lockOf send mr)) ∧
    (∀ (env : MaterialiseEnv) (db : DB),
      SentInv db → SentInv (createBirthdayMessages env db)) := by
  refine ⟨?_, ?_, ?_, ?_⟩
  · intro db now lockOf send mr r hnd hr hs
    exact ⟨processIds_mem now lockOf send mr _ db hr (due_ids_ne_sent db now hnd hr hs),
           processIds_mem now lockOf send mr _ db hr (missed_ids_ne_sent db now hnd hr hs)⟩
  · intro env db r hr
    obtain ⟨-, t, ht, -⟩ := createBirthdayMessages_shape env db
    rw [ht]
    exact List.mem_append_left t hr
  · intro db now lockOf send mr h
    exact ⟨processIds_sentInv now lockOf send mr _ db h,
           processIds_sentInv now lockOf send mr _ db h⟩
  · intro env db h
    obtain ⟨-, t, ht, hp⟩ := createBirthdayMessages_shape env db
    intro m hm hs
    rw [ht] at hm
    rcases List.mem_append.mp hm with hml | hmr
    · exact h m hml hs
    · rw [hp m hmr] at hs
      exact absurd hs (by simp)

/-- C1 counterexample: applying the per-record processor step directly to
a record whose status is already Sent does invoke the delivery client and
does change the record (it re-delivers and overwrites `sentAt`),
contradicting the claim's "leaves the record unchanged and does not invoke
the delivery client". -/
theorem c1_counterexample :
    (processMessage dbSent 1 1000 7 okSend 3).delivered =
      some ("john.doe@example.com", renderBirthday "John Doe") ∧
    (processMessage dbSent 1 1000 7 okSend 3).db.logs ≠ dbSent.logs := by
  exact ⟨by decide, by decide⟩

/-- C1 witness: the Sent row of `dbSent` survives a due tick, a recovery
pass and a materialiser run, and the Sent-implies-sentAt invariant holds
afterwards. -/
theorem c1_sent_terminality_witness :
    sentLog ∈ (processPendingMessages dbSent 1000 (fun _ => 7) okSend 3).logs ∧
    sentLog ∈ (recoverUnsentMessages dbSent 1000 (fun _ => 7) okSend 3).logs ∧
    sentLog ∈ (createBirthdayMessages envMay15 dbSent).logs ∧
    SentInv (processPendingMessages dbSent 1000 (fun _ => 7) okSend 3) :=
  ⟨(c1_sent_terminality.1 dbSent 1000 (fun _ => 7) okSend 3 sentLog
      (by decide) (by decide) (by decide)).1,
   (c1_sent_terminality.1 dbSent 1000 (fun _ => 7) okSend 3 sentLog
      (by decide) (by decide) (by decide)).2,
   c1_sent_terminality.2.1 envMay15 dbSent sentLog (by decide),
   (c1_sent_terminality.2.2.1 dbSent 1000 (fun _ => 7) okSend 3
      (by
        intro m hm hs
        have hm' : m = sentLog := by simpa [dbSent] using hm
        subst hm'
        decide)).1⟩

/-! ## C2: retry exhaustion -/

/-- C2 (amended): one failed per-record invocation bumps the persisted
counter by exactly one and applies
`status = retryCount + 1 >= maxRetries ? Failed : Retry`; hence with
`maxRetries = 3` and persistently failing delivery the ticks give
Retry/1, Retry/2, then Failed/3 after the third tick (not the fourth: the
spec's own policy formula fires at `retryCount + 1 = 3`), and the fourth
tick no longer selects the record so the state stays Failed/3. -/
theorem c2_retry_exhaustion :
    (∀ (db : DB) (i : Nat) (now : Int) (lk : Nat)
        (send : String → String → SendOutcome) (mr : Nat)
        (ml : MessageLog) (u : User),
      db.logs.find? (fun m => decide (m.id = i)) = some ml →
      lockFree now ml = true →
      db.users.find? (fun v => decide (v.id = ml.userId)) = some u →
      (send u.email (sendBirthdayMessageText (u.firstName ++ " " ++ u.lastName))).success = false →
      (processMessage db i now lk send mr).db.logs.find? (fun m => decide (m.id = i)) =
        some { ml with
          status := if mr ≤ ml.retryCount + 1 then MessageStatus.FAILED
                    else MessageStatus.RETRY
          retryCount := ml.retryCount + 1
          errorMessage := some ((send u.email
            (sendBirthdayMessageText (u.firstName ++ " " ++ u.lastName))).error.getD "Unknown error")
          lockId := none
          lockedUntil := none }) ∧
    (tick 100 dbPending).logs.map (fun m => (m.status, m.retryCount)) =
      [(MessageStatus.RETRY, 1)] ∧
    (tick 200 (tick 100 dbPending)).logs.map (fun m => (m.status, m.retryCount)) =
      [(MessageStatus.RETRY, 2)] ∧
    (tick 300 (tick 200 (tick 100 dbPending))).logs.map (fun m => (m.status, m.retryCount)) =
      [(MessageStatus.FAILED, 3)] ∧
    tick 400 (tick 300 (tick 200 (tick 100 dbPending))) =
      tick 300 (tick 200 (tick 100 dbPending)) := by
  refine ⟨?_, by decide, by decide, by decide, by decide⟩
  intro db i now lk send mr ml u hfind hlock huser hsend
  have hid : ml.id = i := by
    have := List.find?_some hfind
    simpa using this
  rw [processMessage_locked db i now lk send mr hfind hlock, huser]
  dsimp only
  simp only [hsend, Bool.false_eq_true, if_false]
  rw [find_map_id_pred _ _ (failRow_id i mr (ml.retryCount + 1) _) i,
    find_map_id_pred _ _ (lockRow_id i now lk) i, hfind]
  simp only [Option.map]
  have hml1 : lockRow i now lk ml =
      { ml with lockId := some lk, lockedUntil := some (now + lockDuration) } :=
    if_pos ⟨hid, hlock⟩
  rw [hml1]
  simp [failRow, hid]

/-- C2 counterexample: after the third tick the record is already
Failed/3, where the claim requires Retry/3 after tick 3 and Failed only
after tick 4. -/
theorem c2_counterexample :
    (tick 300 (tick 200 (tick 100 dbPending))).logs.map
        (fun m => (m.status, m.retryCount)) = [(MessageStatus.FAILED, 3)] ∧
    (tick 300 (tick 200 (tick 100 dbPending))).logs.map
        (fun m => (m.status, m.retryCount)) ≠ [(MessageStatus.RETRY, 3)] := by
  exact ⟨by decide, by decide⟩

/-- C2 witness: the per-invocation failure law evaluated on the concrete
pending row: one invocation yields Retry with the counter at 1. -/
theorem c2_retry_exhaustion_witness :
    (processMessage dbPending 1 100 7 failSend 3).db.logs.find?
        (fun m => decide (m.id = 1)) =
      some { pendingLog with
        status := if 3 ≤ pendingLog.retryCount + 1 then MessageStatus.FAILED
                  else MessageStatus.RETRY
        retryCount := pendingLog.retryCount + 1
        errorMessage := some ((failSend john.email
          (sendBirthdayMessageText (john.firstName ++ " " ++ john.lastName))).error.getD "Unknown error")
        lockId := none
        lockedUntil := none } :=
  c2_retry_exhaustion.1 dbPending 1 100 7 failSend 3 pendingLog john
    (by decide) (by decide) (by decide) (by decide)

/-! ## C3: delivered text -/

/-- C3 (amended): the text handed to the delivery client is re-rendered
from the user's name as read at processing time, with the same template
the materialiser stored at creation; it therefore equals the stored
`messageBody` whenever the rendered names coincide (in particular when
the name is unchanged), but a rename between creation and processing does
change the delivered text (see the counterexample). -/
theorem c3_delivered_text :
    (∀ (db : DB) (i : Nat) (now : Int) (lk : Nat)
        (send : String → String → SendOutcome) (mr : Nat)
        (ml : MessageLog) (u : User),
      db.logs.find? (fun m => decide (m.id = i)) = some ml →
      lockFree now ml = true →
      db.users.find? (fun v => decide (v.id = ml.userId)) = some u →
      (processMessage db i now lk send mr).delivered =
        some (u.email, renderBirthday (u.firstName ++ " " ++ u.lastName))) ∧
    (∀ (env : MaterialiseEnv) (u : User) (st : List MessageLog × Nat),
      hasTuple st.1 u.id (env.todayFn u.timezone) = false →
      ∃ r, (ensureBirthdayMessage env u st).1 = st.1 ++ [r] ∧
        r.message = renderBirthday (u.firstName ++ " " ++ u.lastName) ∧
        r.userId = u.id ∧ r.status = MessageStatus.PENDING) ∧
    (∀ (db : DB) (i : Nat) (now : Int) (lk : Nat)
        (send : String → String → SendOutcome) (mr : Nat)
        (ml : MessageLog) (u : User),
      db.logs.find? (fun m => decide (m.id = i)) = some ml →
      lockFree now ml = true →
      db.users.find? (fun v => decide (v.id = ml.userId)) = some u →
      ml.message = renderBirthday (u.firstName ++ " " ++ u.lastName) →
      (processMessage db i now lk send mr).delivered = some (u.email, ml.message)) := by
  have hdel : ∀ (db : DB) (i : Nat) (now : Int) (lk : Nat)
      (send : String → String → SendOutcome) (mr : Nat)
      (ml : MessageLog) (u : User),
      db.logs.find? (fun m => decide (m.id = i)) = some ml →
      lockFree now ml = true →
      db.users.find? (fun v => decide (v.id = ml.userId)) = some u →
      (processMessage db i now lk send mr).delivered =
        some (u.email, renderBirthday (u.firstName ++ " " ++ u.lastName)) := by
    intro db i now lk send mr ml u hfind hlock huser
    rw [processMessage_locked db i now lk send mr hfind hlock, huser]
    dsimp only
    split <;> rfl
  refine ⟨hdel, ?_, ?_⟩
  · intro env u st h
    unfold ensureBirthdayMessage
    dsimp only
    rw [if_neg (by simp [h])]
    exact ⟨_, rfl, rfl, rfl, rfl⟩
  · intro db i now lk send mr ml u hfind hlock huser hmsg
    rw [hdel db i now lk send mr ml u hfind hlock huser, hmsg]

/-- C3 counterexample: a record materialised for "John Doe" stores that
rendering, but after a rename to "Jane Doe" the processor hands the
delivery client the re-rendered current name, not the stored body. -/
theorem c3_counterexample :
    dbRenamed.logs.map (·.message) = [renderBirthday "John Doe"] ∧
    (processMessage dbRenamed 1 100 7 okSend 3).delivered =
      some ("john.doe@example.com", renderBirthday "Jane Doe") ∧
    renderBirthday "Jane Doe" ≠ renderBirthday "John Doe" := by
  exact ⟨by decide, by decide, by decide⟩

/-- C3 witness: with the name unchanged, the delivered text equals the
stored body (the row materialised for `john` is exactly `pendingLog`). -/
theorem c3_delivered_text_witness :
    (processMessage dbCreated 1 100 7 okSend 3).delivered =
      some (john.email, pendingLog.message) :=
  c3_delivered_text.2.2 dbCreated 1 100 7 okSend 3 pendingLog john
    (by decide) (by decide) (by decide) (by decide)

/-! ## C9: user vanished after lease acquisition -/

/-- C9 (amended): when the post-lease re-read finds no user, the
processor aborts without invoking the delivery client, without deleting
the record and without touching the users table; but it does not release
the just-acquired lease — the record keeps the fresh lock token with its
5-minute expiry (the original claim's "releases the lease" is refuted by
the counterexample). -/
theorem c9_user_vanished :
    ∀ (db : DB) (i : Nat) (now : Int) (lk : Nat)
      (send : String → String → SendOutcome) (mr : Nat) (ml : MessageLog),
      db.logs.find? (fun m => decide (m.id = i)) = some ml →
      lockFree now ml = true →
      db.users.find? (fun v => decide (v.id = ml.userId)) = none →
      (processMessage db i now lk send mr).delivered = none ∧
      (processMessage db i now lk send mr).db.users = db.users ∧
      (processMessage db i now lk send mr).db.logs = db.logs.map (lockRow i now lk) ∧
      (processMessage db i now lk send mr).db.logs.length = db.logs.length ∧
      (processMessage db i now lk send mr).db.logs.find? (fun m => decide (m.id = i)) =
        some { ml with lockId := some lk, lockedUntil := some (now + lockDuration) } := by
  intro db i now lk send mr ml hfind hlock huser
  have hid : ml.id = i := by
    have := List.find?_some hfind
    simpa using this
  rw [processMessage_locked db i now lk send mr hfind hlock, huser]
  refine ⟨rfl, rfl, rfl, by simp, ?_⟩
  dsimp only
  rw [find_map_id_pred _ _ (lockRow_id i now lk) i, hfind]
  simp only [Option.map]
  have hml1 : lockRow i now lk ml =
      { ml with lockId := some lk, lockedUntil := some (now + lockDuration) } :=
    if_pos ⟨hid, hlock⟩
  rw [hml1]

/-- C9 counterexample: with the user deleted, after the processor step the
record still carries the fresh lock token — the lease is not released as
the claim states. -/
theorem c9_counterexample :
    (processMessage dbOrphan 1 1000 7 okSend 3).db.logs.map (·.lockId) = [some 7] ∧
    (processMessage dbOrphan 1 1000 7 okSend 3).db.logs.map (·.lockId) ≠ [none] := by
  exact ⟨by decide, by decide⟩

/-- C9 witness: the vanished-user law evaluated on the concrete orphaned
row. -/
theorem c9_user_vanished_witness :
    (processMessage dbOrphan 1 1000 7 okSend 3).delivered = none ∧
    (processMessage dbOrphan 1 1000 7 okSend 3).db.logs.find?
        (fun m => decide (m.id = 1)) =
      some { pendingLog with lockId := some 7, lockedUntil := some (1000 + lockDuration) } :=
  ⟨(c9_user_vanished dbOrphan 1 1000 7 okSend 3 pendingLog
      (by decide) (by decide) (by decide)).1,
   (c9_user_vanished dbOrphan 1 1000 7 okSend 3 pendingLog
      (by decide) (by decide) (by decide)).2.2.2.2⟩

/-! ## C8: due selection -/

/-- The lock condition unfolded to the spec's vocabulary. -/
lemma lockFree_iff (now : Int) (m : MessageLog) :
    lockFree now m = true ↔
      (m.lockId = none ∨ ∃ t, m.lockedUntil = some t ∧ t ≤ now) := by
  unfold lockFree
  cases h : m.lockedUntil <;> simp [h]

/-- Two further due rows (out of `scheduledAt` order in the table). -/
def dueA : MessageLog := { pendingLog with id := 1, scheduledAt := 10 }

/-- Two further due rows (out of `scheduledAt` order in the table). -/
def dueB : MessageLog := { pendingLog with id := 2, scheduledAt := 5 }

/-- Database with two due rows. -/
def dbTwoDue : DB := { users := [john], logs := [dueA, dueB] }

/-- C8 (amended): the due query returns exactly the records with status
Pending or Retry, `scheduledAt ≤ now`, and lock absent or expired
(`lockedUntil ≤ now`; a row with a lock token but null expiry counts as
locked), ordered ascending by `scheduledAt`; it returns all such records
— the query has no `take`, so no batch limit exists. -/
theorem c8_select_due :
    (∀ (db : DB) (now : Int) (m : MessageLog),
      m ∈ selectDue db now ↔
        m ∈ db.logs ∧
        (m.status = MessageStatus.PENDING ∨ m.status = MessageStatus.RETRY) ∧
        m.scheduledAt ≤ now ∧
        (m.lockId = none ∨ ∃ t, m.lockedUntil = some t ∧ t ≤ now)) ∧
    (∀ (db : DB) (now : Int), (selectDue db now).Sorted schedLE) ∧
    (∀ (db : DB) (now : Int),
      (selectDue db now).Perm (db.logs.filter (isDue now))) := by
  refine ⟨?_, ?_, ?_⟩
  · intro db now m
    rw [mem_selectDue db now]
    constructor
    · rintro ⟨hmem, hdue⟩
      simp only [isDue, Bool.and_eq_true, Bool.or_eq_true, decide_eq_true_eq] at hdue
      exact ⟨hmem, hdue.1.1, hdue.1.2, (lockFree_iff now m).mp hdue.2⟩
    · rintro ⟨hmem, hst, hsched, hlock⟩
      refine ⟨hmem, ?_⟩
      simp only [isDue, Bool.and_eq_true, Bool.or_eq_true, decide_eq_true_eq]
      exact ⟨⟨hst, hsched⟩, (lockFree_iff now m).mpr hlock⟩
  · intro db now
    exact List.sorted_insertionSort schedLE _
  · intro db now
    exact List.perm_insertionSort schedLE _

/-- C8 counterexample: with two due rows the query returns both (no
batch limit of 1 — or of any size — is applied), ordered ascending by
`scheduledAt`. -/
theorem c8_counterexample :
    (selectDue dbTwoDue 100).length = 2 ∧
    ¬ (selectDue dbTwoDue 100).length ≤ 1 ∧
    (selectDue dbTwoDue 100).map (·.id) = [2, 1] := by
  exact ⟨by decide, by decide, by decide⟩

/-! ## C4: materialisation idempotence -/

/-- At most one row per `(userId, messageType, scheduledDate)` tuple. -/
def TupleUniq (logs : List MessageLog) : Prop :=
  (logs.map fun m => (m.userId, m.messageType, m.scheduledDate)).Nodup

/-- `hasTuple` persists under appending rows. -/
lemma hasTuple_append (logs t : List MessageLog) (uid : Nat) (d : String)
    (h : hasTuple logs uid d = true) : hasTuple (logs ++ t) uid d = true := by
  simp only [hasTuple, List.any_append, Bool.or_eq_true]
  exact Or.inl h

/-- One per-user step only appends rows. -/
lemma birthdayUserStep_shape (env : MaterialiseEnv) (st : List MessageLog × Nat)
    (u : User) :
    ∃ t, (birthdayUserStep env st u).1 = st.1 ++ t ∧
      ∀ m ∈ t, m.status = MessageStatus.PENDING := by
  unfold birthdayUserStep ensureBirthdayMessage
  split
  · dsimp only
    split
    · exact ⟨[], (List.append_nil _).symm, by simp⟩
    · exact ⟨[_], rfl, by intro m hm; simp at hm; subst hm; rfl⟩
  · exact ⟨[], (List.append_nil _).symm, by simp⟩

/-- After `ensureBirthdayMessage`, the user's tuple for today exists. -/
lemma ensure_hasTuple_self (env : MaterialiseEnv) (u : User)
    (st : List MessageLog × Nat) :
    hasTuple (ensureBirthdayMessage env u st).1 u.id (env.todayFn u.timezone) = true := by
  unfold ensureBirthdayMessage
  dsimp only
  split
  · assumption
  · simp only [hasTuple, List.any_append, Bool.or_eq_true]
    right
    simp

/-- A materialiser fold never loses a tuple. -/
lemma fold_hasTuple_mono (env : MaterialiseEnv) (us : List User)
    (st : List MessageLog × Nat) (uid : Nat) (d : String)
    (h : hasTuple st.1 uid d = true) :
    hasTuple (us.foldl (birthdayUserStep env) st).1 uid d = true := by
  obtain ⟨t, ht, -⟩ := birthdayFold_shape env us st
  rw [ht]
  exact hasTuple_append _ _ _ _ h

/-- A step for a user whose tuple already exists is a no-op. -/
lemma birthdayUserStep_of_hasTuple (env : MaterialiseEnv)
    (st : List MessageLog × Nat) (u : User)
    (h : hasTuple st.1 u.id (env.todayFn u.timezone) = true) :
    birthdayUserStep env st u = st := by
  unfold birthdayUserStep ensureBirthdayMessage
  split
  · dsimp only
    rw [if_pos h]
  · rfl

/-- After a full materialiser fold, every processed user with a birthday
today has a tuple. -/
lemma fold_hasTuple_all (env : MaterialiseEnv) :
    ∀ (us : List User) (st : List MessageLog × Nat) (u : User), u ∈ us →
      isBirthdayToday env u.birthday u.timezone = true →
      hasTuple (us.foldl (birthdayUserStep env) st).1 u.id (env.todayFn u.timezone) = true := by
  intro us
  induction us with
  | nil => intro st u hu; exact absurd hu (List.not_mem_nil u)
  | cons v vs ih =>
      intro st u hu hbday
      rcases List.mem_cons.mp hu with rfl | hu'
      · simp only [List.foldl_cons]
        apply fold_hasTuple_mono
        unfold birthdayUserStep
        rw [if_pos hbday]
        exact ensure_hasTuple_self env u st
      · simp only [List.foldl_cons]
        exact ih _ u hu' hbday

/-- A materialiser fold over users whose due tuples all already exist is
the identity. -/
lemma fold_noop (env : MaterialiseEnv) :
    ∀ (us : List User) (st : List MessageLog × Nat),
      (∀ u ∈ us, isBirthdayToday env u.birthday u.timezone = true →
        hasTuple st.1 u.id (env.todayFn u.timezone) = true) →
      us.foldl (birthdayUserStep env) st = st := by
  intro us
  induction us with
  | nil => intro st _; rfl
  | cons v vs ih =>
      intro st h
      have hv : birthdayUserStep env st v = st := by
        by_cases hb : isBirthdayToday env v.birthday v.timezone = true
        · exact birthdayUserStep_of_hasTuple env st v (h v (by simp) hb)
        · unfold birthdayUserStep
          rw [if_neg hb]
      simp only [List.foldl_cons, hv]
      exact ih st fun u hu => h u (by simp [hu])

/-- A step preserves tuple-uniqueness: it creates a row only when the
row's dedup tuple is absent. -/
lemma birthdayUserStep_tupleUniq (env : MaterialiseEnv)
    (st : List MessageLog × Nat) (u : User) (h : TupleUniq st.1) :
    TupleUniq (birthdayUserStep env st u).1 := by
  unfold birthdayUserStep ensureBirthdayMessage
  split
  · dsimp only
    split
    · exact h
    · rename_i hmiss
      unfold TupleUniq at h ⊢
      rw [List.map_append, List.nodup_append]
      refine ⟨h, by simp, ?_⟩
      intro x hx
      simp only [List.map_cons, List.map_nil, List.mem_singleton]
      intro hxeq
      obtain ⟨m, hm, hmx⟩ := List.mem_map.mp hx
      rw [hxeq] at hmx
      have : hasTuple st.1 u.id (env.todayFn u.timezone) = true := by
        simp only [hasTuple, List.any_eq_true]
        refine ⟨m, hm, ?_⟩
        simp only [decide_eq_true_eq]
        exact ⟨congrArg Prod.fst hmx,
          congrArg (fun p => p.2.1) hmx, congrArg (fun p => p.2.2) hmx⟩
      exact absurd this hmiss
  · exact h

/-- The materialiser fold preserves tuple-uniqueness. -/
lemma fold_tupleUniq (env : MaterialiseEnv) :
    ∀ (us : List User) (st : List MessageLog × Nat), TupleUniq st.1 →
      TupleUniq ((us.foldl (birthdayUserStep env) st)).1 := by
  intro us
  induction us with
  | nil => intro st h; exact h
  | cons v vs ih =>
      intro st h
      simp only [List.foldl_cons]
      exact ih _ (birthdayUserStep_tupleUniq env st v h)

/-- A second materialiser run in the same civil day (same environment) is
a no-op. -/
lemma createBirthdayMessages_idem (env : MaterialiseEnv) (db : DB) :
    createBirthdayMessages env (createBirthdayMessages env db) =
      createBirthdayMessages env db := by
  set db1 := createBirthdayMessages env db with hdb1
  have h : (db1.users.filter (·.isActive)).foldl (birthdayUserStep env)
      (db1.logs, nextId db1) = (db1.logs, nextId db1) := by
    apply fold_noop
    intro u hu hb
    have hlogs : db1.logs = ((db.users.filter (·.isActive)).foldl
        (birthdayUserStep env) (db.logs, nextId db)).1 := rfl
    rw [hlogs]
    exact fold_hasTuple_all env (db.users.filter (·.isActive)) _ u hu hb
  calc createBirthdayMessages env db1
      = { db1 with logs := ((db1.users.filter (·.isActive)).foldl
          (birthdayUserStep env) (db1.logs, nextId db1)).1 } := rfl
    _ = { db1 with logs := (db1.logs, nextId db1).1 } := by rw [h]
    _ = db1 := rfl

/-- C4 (amended per the code's structure; the claim holds): repeated
materialiser runs in the same civil day (same `todayFn`) are idempotent —
N runs (N ≥ 1) equal one run; runs only append rows, never modifying
existing ones; and tuple-uniqueness of `(userId, messageType,
scheduledDate)` is preserved by every run. -/
theorem c4_materialise_idempotent :
    (∀ (env : MaterialiseEnv) (db : DB) (n : Nat), 1 ≤ n →
      (createBirthdayMessages env)^[n] db = createBirthdayMessages env db) ∧
    (∀ (env : MaterialiseEnv) (db : DB), TupleUniq db.logs →
      TupleUniq (createBirthdayMessages env db).logs) ∧
    (∀ (env : MaterialiseEnv) (db : DB),
      ∃ t, (createBirthdayMessages env db).logs = db.logs ++ t) := by
  refine ⟨?_, ?_, ?_⟩
  · intro env db n hn
    obtain ⟨k, rfl⟩ : ∃ k, n = k + 1 := ⟨n - 1, by omega⟩
    induction k with
    | zero => exact Function.iterate_one _ ▸ rfl
    | succ k ih =>
        rw [Function.iterate_succ_apply', ih (by omega),
          createBirthdayMessages_idem]
  · intro env db h
    exact fold_tupleUniq env _ _ h
  · intro env db
    obtain ⟨-, t, ht, -⟩ := createBirthdayMessages_shape env db
    exact ⟨t, ht⟩

/-- C4 witness: three runs on the concrete database equal one run, the
run appends exactly the one expected row, and tuple-uniqueness holds
afterwards. -/
theorem c4_materialise_idempotent_witness :
    (createBirthdayMessages envMay15)^[3] dbJohn = createBirthdayMessages envMay15 dbJohn ∧
    TupleUniq (createBirthdayMessages envMay15 dbJohn).logs ∧
    ∃ t, (createBirthdayMessages envMay15 dbJohn).logs = dbJohn.logs ++ t :=
  ⟨c4_materialise_idempotent.1 envMay15 dbJohn 3 (by decide),
   c4_materialise_idempotent.2.1 envMay15 dbJohn (by unfold TupleUniq; decide),
   c4_materialise_idempotent.2.2 envMay15 dbJohn⟩

/-! ## C7: scheduled send instant under DST -/

/-- `Int.add_mul_emod_self` restated on `Int.emod` applications. -/
lemma emod_add_mul_self (a b c : Int) : (a + b * c).emod c = a.emod c :=
  Int.add_mul_emod_self

/-- With `keepTime = true` (the hour setter) the wall time is kept and
the offset becomes the zone's offset at the naive instant. -/
lemma tzUpdateOffset_true (z : Zone) (m : MomentState) :
    tzUpdateOffset z true m = { m with offset := -(offsetAt z (instantOf m)) } := by
  by_cases h : -offsetAt z (instantOf m) = m.offset
  · simp only [tzUpdateOffset, if_pos h]
    rw [h]
  · simp only [tzUpdateOffset, if_neg h]
    rfl

/-- With `keepTime = false` (minute/second/millisecond setters) the
instant is preserved. -/
lemma instantOf_tzUpdateOffset_false (z : Zone) (m : MomentState) :
    instantOf (tzUpdateOffset z false m) = instantOf m := by
  by_cases h : -offsetAt z (instantOf m) = m.offset
  · simp only [tzUpdateOffset, if_pos h]
  · simp only [tzUpdateOffset, if_neg h, Bool.false_eq_true, if_false]
    simp only [instantOf]
    ring

/-- With `keepTime = false` the wall time moves by a whole number of
minutes. -/
lemma d_tzUpdateOffset_false (z : Zone) (m : MomentState) :
    ∃ k : Int, (tzUpdateOffset z false m).d = m.d + k * 60000 := by
  by_cases h : -offsetAt z (instantOf m) = m.offset
  · exact ⟨0, by simp only [tzUpdateOffset, if_pos h]; ring⟩
  · refine ⟨-offsetAt z (instantOf m) - m.offset, ?_⟩
    simp only [tzUpdateOffset, if_neg h, Bool.false_eq_true, if_false]

/-- On a state whose wall time is a whole minute, the trailing
`.second(0).millisecond(0)` setters do not move the instant. -/
lemma instantOf_second_ms (z : Zone) (m : MomentState)
    (hd : m.d.emod 60000 = 0) :
    instantOf (setMillisecond z 0 (setSecond z 0 m)) = instantOf m := by
  have h1000 : m.d.emod 1000 = 0 := by
    have h60 : (60000 : Int) ∣ m.d := Int.dvd_of_emod_eq_zero hd
    exact Int.emod_eq_zero_of_dvd (dvd_trans ⟨60, by norm_num⟩ h60)
  have hsec : setSecond z 0 m = tzUpdateOffset z false m := by
    unfold setSecond
    congr 1
    cases m with
    | mk d o =>
        simp only at hd h1000 ⊢
        congr 1
        omega
  rw [hsec]
  obtain ⟨k, hk⟩ := d_tzUpdateOffset_false z m
  have hd2 : (tzUpdateOffset z false m).d.emod 1000 = 0 := by
    rw [hk, show m.d + k * 60000 = m.d + k * 60 * 1000 by ring,
      emod_add_mul_self, h1000]
  have hms : setMillisecond z 0 (tzUpdateOffset z false m) =
      tzUpdateOffset z false (tzUpdateOffset z false m) := by
    unfold setMillisecond
    congr 1
    cases h : tzUpdateOffset z false m with
    | mk d o =>
        rw [h] at hd2
        simp only at hd2 ⊢
        congr 1
        omega
  rw [hms, instantOf_tzUpdateOffset_false, instantOf_tzUpdateOffset_false]

/-- C7 (amended): `scheduledAt` is the configured wall time `hour:minute`
on the target date `M` (a wall midnight), read at the UTC offset the zone
has at the instant "wall `hour:00` interpreted at the midnight offset" —
moment's hour setter keeps the wall clock and re-resolves the offset, and
the later setters keep the instant.  Whenever that offset is the offset
actually in effect at the result, this is exactly "hh:mm local converted
to UTC" (e.g. 09:00 on the 2027-03-14 spring-forward day gives 13:00Z),
and at a fall-back ambiguity the earlier instant results (01:30 on
2027-11-07 gives 05:30Z, not 06:30Z).  But in a spring-forward gap the
result is the skipped wall time plus the post-gap offset — hour=2,
minute=30 in America/New_York on 2027-03-14 yields 2027-03-14T06:30:00Z
(01:30 EST), not the first valid instant at or after the skipped time
(07:00Z) that the original claim states. -/
theorem c7_scheduled_time :
    (∀ (z : Zone) (h mn M : Int), 86400000 ∣ M →
      offsetAt z (M + zoneParse z M * 60000) = zoneParse z M →
      getScheduledTime z h mn M =
        M + h * 3600000 + mn * 60000 +
          60000 * offsetAt z (M + h * 3600000 + zoneParse z M * 60000)) ∧
    getScheduledTime nyZone 9 0 mar14 = 1805029200000 ∧
    getScheduledTime nyZone 2 30 mar14 = 1805005800000 ∧
    getScheduledTime nyZone 1 30 nov7 = 1825565400000 := by
  refine ⟨?_, by decide, by decide, by decide⟩
  intro z h mn M hMd hPfix
  have hM86 : M.emod 86400000 = 0 := Int.emod_eq_zero_of_dvd hMd
  have hM36 : M.emod 3600000 = 0 :=
    Int.emod_eq_zero_of_dvd (dvd_trans ⟨24, by norm_num⟩ hMd)
  have hM60 : M.emod 60000 = 0 :=
    Int.emod_eq_zero_of_dvd (dvd_trans ⟨1440, by norm_num⟩ hMd)
  have hm0 : momentTzOfDate z M = { d := M, offset := -(zoneParse z M) } := by
    simp only [momentTzOfDate, hPfix]
    congr 1
    ring
  have hstep1 : setHour z h { d := M, offset := -(zoneParse z M) } =
      tzUpdateOffset z true { d := M + h * 3600000, offset := -(zoneParse z M) } := by
    unfold setHour
    congr 2
    show M - M.emod 86400000 + h * 3600000 + M.emod 3600000 = M + h * 3600000
    omega
  have hinst1 : instantOf { d := M + h * 3600000, offset := -(zoneParse z M) } =
      M + h * 3600000 + zoneParse z M * 60000 := by
    simp only [instantOf]
    ring
  have hstep2 : setMinute z mn
      { d := M + h * 3600000
        offset := -(offsetAt z (M + h * 3600000 + zoneParse z M * 60000)) } =
      tzUpdateOffset z false
        { d := M + h * 3600000 + mn * 60000
          offset := -(offsetAt z (M + h * 3600000 + zoneParse z M * 60000)) } := by
    unfold setMinute
    congr 2
    show M + h * 3600000 - (M + h * 3600000).emod 3600000 + mn * 60000 +
        (M + h * 3600000).emod 60000 = M + h * 3600000 + mn * 60000
    rw [emod_add_mul_self, hM36,
      show M + h * 3600000 = M + h * 60 * 60000 by ring,
      emod_add_mul_self, hM60]
    ring
  unfold getScheduledTime
  rw [hm0, hstep1, tzUpdateOffset_true]
  simp only [hinst1]
  rw [hstep2]
  have hdmod : ∀ k : Int,
      (M + h * 3600000 + mn * 60000 + k * 60000).emod 60000 = 0 := by
    intro k
    rw [show M + h * 3600000 + mn * 60000 + k * 60000 =
        M + (h * 60 + mn + k) * 60000 by ring, emod_add_mul_self, hM60]
  obtain ⟨k, hk⟩ := d_tzUpdateOffset_false z
    { d := M + h * 3600000 + mn * 60000
      offset := -(offsetAt z (M + h * 3600000 + zoneParse z M * 60000)) }
  rw [instantOf_second_ms z _ (by rw [hk]; exact hdmod k),
    instantOf_tzUpdateOffset_false]
  simp only [instantOf]
  ring

/-- C7 counterexample: on the claim's own example (hour=2, minute=30,
America/New_York, 2027-03-14) the code yields 2027-03-14T06:30:00Z, not
the claimed first-valid-instant 2027-03-14T07:00:00Z. -/
theorem c7_counterexample :
    getScheduledTime nyZone 2 30 mar14 ≠ 1805007600000 ∧
    getScheduledTime nyZone 2 30 mar14 = 1805005800000 := by
  exact ⟨by decide, by decide⟩

/-- C7 witness: the wall-time formula evaluated on America/New_York at
09:00 on the 2027 spring-forward day (giving 13:00Z, the offset being
EDT). -/
theorem c7_scheduled_time_witness :
    getScheduledTime nyZone 9 0 mar14 =
      mar14 + 9 * 3600000 + 0 * 60000 +
        60000 * offsetAt nyZone (mar14 + 9 * 3600000 + zoneParse nyZone mar14 * 60000) :=
  c7_scheduled_time.1 nyZone 9 0 mar14 ⟨20891, by norm_num [mar14]⟩ (by decide)

end BirthdayApp
